import Mathlib

/-!
Verification development for the Threshold job-board repository:
a shallow embedding of the two batch scripts — the slug discoverer
(`generateSlugCandidates`, `makeRequest`, `probeGreenhouse`, `probeLever`,
`processFirm`, the summary tally) and the job fetcher (`fetch-jobs.js`:
`timeAgo`, `extractType`, the Greenhouse/Lever/JSearch passes, `normalize`,
`matchJSearchToFirms`, output assembly) — together with theorems settling
the specification's claims about them.

Modelling conventions:
* JavaScript strings are `String`; helpers operate on `List Char`.
* Absent / possibly-undefined JSON fields are `Option` values; JavaScript
  truthiness of a string field is "present and nonempty".
* Timestamps are epoch milliseconds (`Int`); date-string parsing is not
  re-modelled, the parsed value is taken as input.
* Network effects are oracles: a probe or fetch receives the response event
  (status + parsed body, transport error, or timeout) it would observe.
* Iterative regex-replace loops are modelled with an explicit fuel argument
  (always called with fuel ≥ the string length, and each step consumes at
  least one character, so the fuel never runs out on real inputs).
-/

/- ═══════════════ Generic string helpers (JS semantics) ═══════════════ -/

/-- JavaScript `\s` whitespace class, restricted to the ASCII characters
that actually occur in the data this repository processes. -/
def isWsChar (c : Char) : Bool :=
  c == ' ' || c == '\t' || c == '\n' || c == '\r' || c == '\x0b' || c == '\x0c'

/-- `beginsWith pat cs` : `cs` starts with `pat`. -/
def beginsWith : List Char → List Char → Bool
  | [], _ => true
  | _ :: _, [] => false
  | a :: as, b :: bs => a == b && beginsWith as bs

/-- `containsSub hay needle` : `needle` occurs contiguously in `hay`
(JS `String.prototype.includes`). -/
def containsSub : List Char → List Char → Bool
  | [], needle => needle.isEmpty
  | h :: t, needle => beginsWith needle (h :: t) || containsSub t needle

/-- Lower-case a string (ASCII, as in the data processed here). -/
def strLower (s : String) : String := String.mk (s.data.map Char.toLower)

/-- JS `String.prototype.trim` (ASCII whitespace). -/
def strTrim (s : String) : String :=
  String.mk (((s.data.dropWhile isWsChar).reverse.dropWhile isWsChar).reverse)

/-- JS `String.prototype.endsWith`. -/
def strEndsWith (s suf : String) : Bool :=
  beginsWith suf.data.reverse s.data.reverse

/-- JS `String.prototype.startsWith`. -/
def strStartsWith (s pre : String) : Bool := beginsWith pre.data s.data

/-- JS `s.substring(0, s.length - n)`. -/
def strDropRight (s : String) (n : Nat) : String :=
  String.mk (s.data.take (s.data.length - n))

/-- JS string truthiness for an optional string field:
truthy iff present and nonempty. -/
def strTruthy (v : Option String) : Bool :=
  match v with
  | some s => !s.data.isEmpty
  | none => false

/-- JS `v || dflt` for an optional string field. -/
def jsStrOr (v : Option String) (dflt : String) : String :=
  match v with
  | some s => if s.data.isEmpty then dflt else s
  | none => dflt

/-- Case-insensitive containment, JS `/pat/i.test(s)` for a literal
pattern. -/
def containsInsens (s pat : String) : Bool :=
  containsSub (s.data.map Char.toLower) (pat.data.map Char.toLower)

/- ═══════════════ JSON values ═══════════════ -/

/-- A parsed JSON value (numbers modelled as integers; the numeric fields
this repository inspects are integral). -/
inductive Json where
  | null
  | bool (b : Bool)
  | num (n : Int)
  | str (s : String)
  | arr (elems : List Json)
  | obj (fields : List (String × Json))

/-- JS truthiness of a JSON value. -/
def jsTruthy : Json → Bool
  | Json.null => false
  | Json.bool b => b
  | Json.num n => !(n == 0)
  | Json.str s => !s.data.isEmpty
  | Json.arr _ => true
  | Json.obj _ => true

/-- Property lookup on an object's field list. -/
def lookupField : List (String × Json) → String → Option Json
  | [], _ => none
  | (k, v) :: rest, key => if k == key then some v else lookupField rest key

/-- JS property access `d[key]`: `none` is `undefined` (also for every
non-object receiver, as in `(5).jobs`). -/
def jsGet : Json → String → Option Json
  | Json.obj fields, key => lookupField fields key
  | _, _ => none

/- ═══════════════ Slug candidate generator (part_001 lines 13–94) ═══════════════ -/

/-- A normalized job posting, the one schema every provider's results are
mapped into (fetch-jobs.js lines 80–86, 123–129, 199–207). -/
structure Job where
  title : String
  type : String
  salary : String
  posted : String
  url : String
deriving DecidableEq

/-- A firm record (shared by both scripts; `firms-base.json` schema).
Descriptive fields the scripts never inspect are kept as raw JSON. -/
structure Firm where
  id : Json
  name : String
  city : Json
  state : Json
  lat : Json
  lng : Json
  size : Json
  discipline : Json
  specialties : Json
  website : Option String
  about : Json
  greenhouse_slug : Option String
  lever_slug : Option String
  jobs : List Job

/-- Hostname extraction of `new URL(website)` (a platform API, modelled
for the common absolute http(s) URLs present in the data): the authority
host up to the first `/`, `:`, `?` or `#`; `none` when parsing fails. -/
def urlHostname (website : String) : Option String :=
  let rest :=
    if strStartsWith website "https://" then some (website.data.drop 8)
    else if strStartsWith website "http://" then some (website.data.drop 7)
    else none
  match rest with
  | none => none
  | some cs =>
    let host := cs.takeWhile (fun c => !(c == '/' || c == ':' || c == '?' || c == '#'))
    if host.isEmpty then none else some (String.mk host)

/-- JS `String.prototype.replace` with a plain-string pattern: replaces the
first occurrence only. -/
def replaceFirstStr (fuel : Nat) (cs pat rep : List Char) : List Char :=
  match fuel, cs with
  | 0, cs => cs
  | _, [] => []
  | fuel + 1, c :: rest =>
    if beginsWith pat (c :: rest) then rep ++ (c :: rest).drop pat.length
    else c :: replaceFirstStr fuel rest pat rep

/-- JS global replace of a literal nonempty pattern: replace every
(leftmost, non-overlapping) occurrence, continuing after each
replacement. -/
def replaceAllStr (fuel : Nat) (cs pat rep : List Char) : List Char :=
  match fuel, cs with
  | 0, cs => cs
  | _, [] => []
  | fuel + 1, c :: rest =>
    if beginsWith pat (c :: rest) then
      rep ++ replaceAllStr fuel ((c :: rest).drop pat.length) pat rep
    else c :: replaceAllStr fuel rest pat rep

/-- The fixed suffix list of the slug generator (part_001 line 36). -/
def slugSuffixes : List String :=
  ["inc.", "inc", "llc", "architecture", "architects", "design", "group", "firm", "company"]

/-- The suffix-stripping loop (part_001 lines 40–46): the first listed
suffix the cleaned name ends with is removed, then whitespace trimmed. -/
def stripSuffixOnce (cleanName : String) : String :=
  match slugSuffixes.find? (fun suf => strEndsWith cleanName suf) with
  | some suf => strTrim (strDropRight cleanName suf.data.length)
  | none => cleanName

/-- Parse the tail of the acronym regex `\(([A-Z]+(?:\s+[A-Z]+)*)\)` after
the first `[A-Z]+` group: repeated `\s+[A-Z]+` groups followed by `)`.
The captured text (whitespace included) is accumulated in `acc`. -/
def parseAcrGroups (fuel : Nat) (cs : List Char) (acc : List Char) : Option (List Char) :=
  match fuel, cs with
  | _, ')' :: _ => some acc
  | 0, _ => none
  | fuel + 1, cs =>
    let (ws, rest) := cs.span isWsChar
    if ws.isEmpty then none
    else
      let (up, rest2) := rest.span (fun c => 'A' ≤ c && c ≤ 'Z')
      if up.isEmpty then none
      else parseAcrGroups fuel rest2 (acc ++ ws ++ up)

/-- First match of `\(([A-Z]+(?:\s+[A-Z]+)*)\)` in the original firm name
(part_001 line 49), returning the captured group. -/
def findAcronym : List Char → Option (List Char)
  | [] => none
  | '(' :: rest =>
    let (up, rest2) := rest.span (fun c => 'A' ≤ c && c ≤ 'Z')
    if up.isEmpty then findAcronym rest
    else
      match parseAcrGroups rest2.length rest2 up with
      | some cap => some cap
      | none => findAcronym rest
  | _ :: rest => findAcronym rest

/-- `/\s+&\s+/g → "-and-"` (part_001 line 62). -/
def repWsAmpWs (fuel : Nat) (cs : List Char) : List Char :=
  match fuel, cs with
  | 0, cs => cs
  | _, [] => []
  | fuel + 1, c :: rest =>
    if isWsChar c then
      let (ws, r1) := (c :: rest).span isWsChar
      match r1 with
      | '&' :: r2 =>
        let (ws2, r3) := r2.span isWsChar
        if ws2.isEmpty then ws ++ repWsAmpWs fuel r1
        else "-and-".data ++ repWsAmpWs fuel r3
      | _ => ws ++ repWsAmpWs fuel r1
    else c :: repWsAmpWs fuel rest

/-- `/\s*sym\s*/g → rep` (part_001 lines 63–65: `&` removed, `+` becomes
`-and-`, `|` removed). -/
def repSymWs (fuel : Nat) (sym : Char) (rep : List Char) (cs : List Char) : List Char :=
  match fuel, cs with
  | 0, cs => cs
  | _, [] => []
  | fuel + 1, c :: rest =>
    if c == sym then
      let (_, r) := rest.span isWsChar
      rep ++ repSymWs fuel sym rep r
    else if isWsChar c then
      let (ws, r1) := (c :: rest).span isWsChar
      match r1 with
      | d :: r2 =>
        if d == sym then
          let (_, r3) := r2.span isWsChar
          rep ++ repSymWs fuel sym rep r3
        else ws ++ repSymWs fuel sym rep r1
      | [] => ws
    else c :: repSymWs fuel sym rep rest

/-- Collapse each maximal run of characters satisfying `p` into the single
character `r` (used for the whitespace-run and hyphen-run global
replacements of part_001 lines 67–68). -/
def collapseRuns (p : Char → Bool) (r : Char) : List Char → List Char
  | [] => []
  | c :: cs =>
    if p c then
      match cs with
      | d :: _ => if p d then collapseRuns p r cs else r :: collapseRuns p r cs
      | [] => [r]
    else c :: collapseRuns p r cs

/-- The full normalization chain of Strategy 3 (part_001 lines 61–69). -/
def normalizeNameChain (cleanName : String) : String :=
  let s0 := cleanName.data
  let s1 := repWsAmpWs s0.length s0
  let s2 := repSymWs s1.length '&' [] s1
  let s3 := repSymWs s2.length '+' "-and-".data s2
  let s4 := repSymWs s3.length '|' [] s3
  let s5 := s4.filter (fun c => !(c == '(' || c == ')' || c == ',' || c == '.' || c == '[' || c == ']'))
  let s6 := collapseRuns isWsChar '-' s5
  let s7 := collapseRuns (fun c => c == '-') '-' s6
  let s8 := (s7.dropWhile (fun c => c == '-')).reverse.dropWhile (fun c => c == '-')
  String.mk s8.reverse

/-- Insertion into the candidate `Set` (keeps JS insertion order,
ignores duplicates). -/
def addCand (l : List String) (s : String) : List String :=
  if l.contains s then l else l ++ [s]

/-- Count of hyphen characters, JS `(s.match(hyphen regex) || []).length`. -/
def hyphenCount (s : String) : Nat := s.data.countP (fun c => c == '-')

/-- The sort comparator of part_001 lines 89–93 as a total preorder:
shorter first, then fewer hyphens. -/
def slugLe (a b : String) : Bool :=
  if a.data.length == b.data.length then hyphenCount a ≤ hyphenCount b
  else a.data.length < b.data.length

/-- Insert `x` after every already-placed element `y` with `slugLe y x`. -/
def insertSorted (x : String) : List String → List String
  | [] => [x]
  | y :: ys => if slugLe y x then y :: insertSorted x ys else x :: y :: ys

/-- Stable sort by `slugLe`. JS `Array.prototype.sort` is required to be
stable, and a stable sort's output under a total preorder is unique, so
this insertion sort produces exactly the array the source's sort does. -/
def sortCandidates (l : List String) : List String :=
  l.foldl (fun acc x => insertSorted x acc) []

/-- `generateSlugCandidates` (part_001 lines 13–94). -/
def generateSlugCandidates (firm : Firm) : List String :=
  let c0 : List String := []
  let c1 :=
    match firm.website with
    | some w =>
      match urlHostname w with
      | some host =>
        let afterWww := replaceFirstStr host.data.length host.data "www.".data []
        let domain := afterWww.takeWhile (fun c => !(c == '.'))
        if domain.isEmpty then c0 else addCand c0 (strLower (String.mk domain))
      | none => c0
    | none => c0
  let cleanName := strTrim (strLower firm.name)
  let baseName := stripSuffixOnce cleanName
  let c2 :=
    match findAcronym firm.name.data with
    | some cap => addCand c1 (String.mk ((cap.map Char.toLower).filter (fun c => !isWsChar c)))
    | none => c1
  let c3 := if baseName == cleanName then c2 else addCand c2 baseName
  let normalized := normalizeNameChain cleanName
  let c4 := addCand c3 normalized
  let c5 := addCand c4 (String.mk (normalized.data.filter (fun c => !(c == '-'))))
  let firstWord := String.mk (cleanName.data.takeWhile
    (fun c => !(isWsChar c || c == '&' || c == '|' || c == '+' || c == ',' || c == '(' || c == ')')))
  let c6 := if firstWord.data.length > 1 then addCand c5 firstWord else c5
  let withAnd1 := replaceAllStr normalized.data.length normalized.data "and".data "and".data
  let withAnd := String.mk (replaceAllStr withAnd1.length withAnd1 "-and-".data "-and-".data)
  let c7 := addCand c6 withAnd
  sortCandidates (c7.filter (fun s => s.data.length > 0))

/- ═══════════════ Provider probes (part_001 lines 97–162) ═══════════════ -/

/-- What the discoverer's HTTP layer observes for one request: a response
with a status code and a body that either parsed as JSON or did not
(`none`), a transport error, or a timeout. -/
inductive HttpEvent where
  | response (status : Nat) (body : Option Json)
  | transportError (msg : String)
  | timeout

/-- The resolved value of `makeRequest` (part_001 lines 97–140): never a
rejection — every outcome is converted to this record. -/
structure ProbeResponse where
  status : Option Nat
  data : Option Json
  error : Option String

/-- `makeRequest` (part_001 lines 97–140). -/
def makeRequest : HttpEvent → ProbeResponse
  | HttpEvent.response st (some j) => ⟨some st, some j, none⟩
  | HttpEvent.response st none => ⟨some st, none, some "Invalid JSON"⟩
  | HttpEvent.transportError m => ⟨none, none, some m⟩
  | HttpEvent.timeout => ⟨none, none, some "Timeout"⟩

/-- The value a probe resolves with: `{found: true, slug}` or
`{found: false}`. -/
structure ProbeOutcome where
  found : Bool
  slug : Option String
deriving DecidableEq

/-- `Array.isArray(result.data.jobs)` guarded by `result.data &&`
(part_001 line 147). -/
def ghBodyMatches : Option Json → Bool
  | some d =>
    jsTruthy d &&
      (match jsGet d "jobs" with
       | some (Json.arr _) => true
       | _ => false)
  | none => false

/-- `probeGreenhouse` (part_001 lines 143–151). -/
def probeGreenhouse (slug : String) (ev : HttpEvent) : ProbeOutcome :=
  let result := makeRequest ev
  if result.status == some 200 && ghBodyMatches result.data then ⟨true, some slug⟩
  else ⟨false, none⟩

/-- `Array.isArray(result.data)` (part_001 line 158). -/
def lvBodyMatches : Option Json → Bool
  | some (Json.arr _) => true
  | _ => false

/-- `probeLever` (part_001 lines 154–162). -/
def probeLever (slug : String) (ev : HttpEvent) : ProbeOutcome :=
  let result := makeRequest ev
  if result.status == some 200 && lvBodyMatches result.data then ⟨true, some slug⟩
  else ⟨false, none⟩

/-- The spec's Greenhouse shape: an object whose `jobs` field is an
array. -/
def ghShapeSpec (j : Json) : Prop :=
  ∃ fields elems, j = Json.obj fields ∧ lookupField fields "jobs" = some (Json.arr elems)

/-- The spec's Lever shape: a top-level array. -/
def lvShapeSpec (j : Json) : Prop := ∃ elems, j = Json.arr elems

/- ═══════════════ Slug discovery driver (part_001 lines 165–242) ═══════════════ -/

/-- The pair of probe oracles a discovery run observes: for each candidate
slug, whether the Greenhouse / Lever probe reports `found`. -/
structure DiscoveryOracle where
  gh : String → Bool
  lv : String → Bool

/-- The candidate loop of `processFirm` (part_001 lines 175–196): probe
Greenhouse then Lever per candidate, short-circuiting each provider
independently, stopping once both have hit. -/
def probeLoop (o : DiscoveryOracle) : List String → Firm → Bool → Bool → Firm × Bool × Bool
  | [], firm, fg, fl => (firm, fg, fl)
  | c :: rest, firm, fg, fl =>
    let step1 : Firm × Bool :=
      if !fg && o.gh c then ({ firm with greenhouse_slug := some c }, true) else (firm, fg)
    let step2 : Firm × Bool :=
      if !fl && o.lv c then ({ step1.1 with lever_slug := some c }, true) else (step1.1, fl)
    if step1.2 && step2.2 then (step2.1, step1.2, step2.2)
    else probeLoop o rest step2.1 step1.2 step2.2

/-- `processFirm` (part_001 lines 165–208): returns the mutated firm and
the `{greenhouse, lever}` result flags. -/
def processFirm (o : DiscoveryOracle) (firm : Firm) : Firm × Bool × Bool :=
  let candidates := generateSlugCandidates firm
  let r := probeLoop o candidates firm false false
  match r.2.1, r.2.2, candidates with
  | false, false, c0 :: _ => ({ r.1 with greenhouse_slug := some c0 }, false, false)
  | _, _, _ => r

/-- The end-of-run counters (part_001 lines 217–221). -/
structure DiscStats where
  greenhouse : Nat
  lever : Nat
  noMatch : Nat

/-- One result tallied (part_001 lines 232–236). -/
def tallyStep (acc : DiscStats) (r : Bool × Bool) : DiscStats :=
  if r.1 then { acc with greenhouse := acc.greenhouse + 1 }
  else if r.2 then { acc with lever := acc.lever + 1 }
  else { acc with noMatch := acc.noMatch + 1 }

/-- The summary counters after a discovery run: every `processFirm` result
tallied once, in order (the batching of part_001 lines 224–242 visits the
batches of the firm list in order, so the tallied sequence is exactly the
mapped list). -/
def discovererStats (o : DiscoveryOracle) (firms : List Firm) : DiscStats :=
  (firms.map (fun f => (processFirm o f).2)).foldl tallyStep ⟨0, 0, 0⟩

/- ═══════════════ Job fetcher: helpers (fetch-jobs.js lines 28–40, 92–112) ═══════════════ -/

/-- `timeAgo` (fetch-jobs.js lines 28–40); both instants are epoch
milliseconds, `Math.floor` of a real division is `Int.fdiv`. -/
def timeAgo (now thenMs : Int) : String :=
  let days : Int := Int.fdiv (now - thenMs) 86400000
  if days == 0 then "Today"
  else if days == 1 then "1 day ago"
  else if days < 7 then toString days ++ " days ago"
  else if days < 14 then "1 week ago"
  else if days < 30 then toString (Int.fdiv days 7) ++ " weeks ago"
  else if days < 60 then "1 month ago"
  else toString (Int.fdiv days 30) ++ " months ago"

/-- One Greenhouse metadata entry. -/
structure GhMeta where
  name : Option String
  value : Option String

/-- One Greenhouse department entry. -/
structure GhDept where
  name : Option String

/-- A raw Greenhouse job posting, the fields fetch-jobs.js reads
(`updated_at` as its parsed timestamp). -/
structure GhJob where
  title : Option String
  metadata : Option (List GhMeta)
  departments : Option (List GhDept)
  updated_at : Option Int
  absolute_url : Option String

/-- The metadata loop of `extractType` (fetch-jobs.js lines 94–98): first
entry whose truthy name contains "type" (case-insensitively) and whose
value is truthy; its value is returned. -/
def metaTypeLookup : List GhMeta → Option String
  | [] => none
  | m :: rest =>
    if strTruthy m.name && containsSub (strLower (jsStrOr m.name "")).data "type".data
        && strTruthy m.value
    then m.value
    else metaTypeLookup rest

/-- The regex `part[\s-]?time` tested at one position. -/
def partTimeAt (cs : List Char) : Bool :=
  beginsWith "part".data cs &&
    (beginsWith "time".data (cs.drop 4) ||
      (match cs.drop 4 with
       | c :: r2 => (isWsChar c || c == '-') && beginsWith "time".data r2
       | [] => false))

/-- Scan every position for the `part[\s-]?time` pattern. -/
def partTimeScan : List Char → Bool
  | [] => false
  | c :: t => partTimeAt (c :: t) || partTimeScan t

/-- `/part[\s-]?time/i.test s` (subject lower-cased, pattern is already
lower-case). -/
def matchesPartTime (s : String) : Bool :=
  partTimeScan (s.data.map Char.toLower)

/-- The department check of `extractType` (fetch-jobs.js lines 100–105);
`none` when the guard fails or no keyword matches, so control falls
through. -/
def deptTypeCheck (j : GhJob) : Option String :=
  match j.departments with
  | some (d0 :: _) =>
    let dept := jsStrOr d0.name ""
    if containsInsens dept "intern" then some "Internship"
    else if matchesPartTime dept then some "Part-time"
    else if containsInsens dept "contract" then some "Contract"
    else none
  | _ => none

/-- The title check of `extractType` (fetch-jobs.js lines 107–110). -/
def titleTypeCheck (j : GhJob) : Option String :=
  let title := strLower (jsStrOr j.title "")
  if containsInsens title "intern" then some "Internship"
  else if matchesPartTime title then some "Part-time"
  else if containsInsens title "contract" then some "Contract"
  else none

/-- `extractType` (fetch-jobs.js lines 92–112): metadata, then departments,
then title, then the default. -/
def extractType (j : GhJob) : String :=
  match metaTypeLookup (j.metadata.getD []) with
  | some v => v
  | none =>
    match deptTypeCheck j with
    | some v => v
    | none =>
      match titleTypeCheck j with
      | some v => v
      | none => "Full-time"

/- ═══════════════ Job fetcher: provider fetches (fetch-jobs.js lines 72–174) ═══════════════ -/

/-- What one `fetchWithTimeout` + decode observes in the fetcher:
`fail` is a null response (timeout / transport error) or `!resp.ok`;
`badJson` a body that did not parse; `body` the parsed payload. -/
inductive FetchEvent (α : Type) where
  | fail
  | badJson
  | body (payload : α)

/-- Greenhouse payload: `some jobs` when `data.jobs` is an array,
`none` otherwise (fetch-jobs.js line 79). -/
def GhPayload := Option (List GhJob)

/-- Normalization of one Greenhouse posting (fetch-jobs.js lines 80–86). -/
def ghNormalize (now : Int) (j : GhJob) : Job :=
  { title := jsStrOr j.title "Untitled"
    type := extractType j
    salary := "See listing"
    posted := match j.updated_at with
      | some t => timeAgo now t
      | none => "Recently"
    url := jsStrOr j.absolute_url "" }

/-- `fetchGreenhouseJobs` (fetch-jobs.js lines 72–90). -/
def fetchGreenhouseJobs (now : Int) (ghResp : String → FetchEvent GhPayload)
    (slug : Option String) : List Job :=
  if !strTruthy slug then []
  else
    match ghResp (jsStrOr slug "") with
    | FetchEvent.fail => []
    | FetchEvent.badJson => []
    | FetchEvent.body none => []
    | FetchEvent.body (some jobs) => jobs.map (ghNormalize now)

/-- Lever `categories` object. -/
structure LvCats where
  commitment : Option String

/-- A raw Lever posting, the fields fetch-jobs.js reads (`createdAt` is an
epoch-milliseconds number in the Lever API). -/
structure LvJob where
  text : Option String
  categories : Option LvCats
  createdAt : Option Int
  hostedUrl : Option String

/-- `(j.categories && j.categories.commitment) || 'Full-time'`
(fetch-jobs.js line 125). -/
def leverJobType (j : LvJob) : String :=
  match j.categories with
  | none => "Full-time"
  | some c => jsStrOr c.commitment "Full-time"

/-- Lever payload: `some jobs` when the body is a top-level array,
`none` otherwise (fetch-jobs.js line 122). -/
def LvPayload := Option (List LvJob)

/-- Normalization of one Lever posting (fetch-jobs.js lines 123–129);
`j.createdAt ? ... : 'Recently'` is numeric truthiness, so 0 is falsy. -/
def lvNormalize (now : Int) (j : LvJob) : Job :=
  { title := jsStrOr j.text "Untitled"
    type := leverJobType j
    salary := "See listing"
    posted := match j.createdAt with
      | some t => if t == 0 then "Recently" else timeAgo now t
      | none => "Recently"
    url := jsStrOr j.hostedUrl "" }

/-- `fetchLeverJobs` (fetch-jobs.js lines 115–133). -/
def fetchLeverJobs (now : Int) (lvResp : String → FetchEvent LvPayload)
    (slug : Option String) : List Job :=
  if !strTruthy slug then []
  else
    match lvResp (jsStrOr slug "") with
    | FetchEvent.fail => []
    | FetchEvent.badJson => []
    | FetchEvent.body none => []
    | FetchEvent.body (some jobs) => jobs.map (lvNormalize now)

/-- A raw JSearch result, the fields fetch-jobs.js reads (salary bounds as
integers, the posted timestamp parsed). -/
structure JsJob where
  employer_name : Option String
  job_title : Option String
  job_employment_type : Option String
  job_min_salary : Option Int
  job_max_salary : Option Int
  job_posted_at_datetime_utc : Option Int
  job_apply_link : Option String
  job_city : Option String
  job_state : Option String
  job_country : Option String
deriving DecidableEq

/-- JSearch payload: `some results` when `data.data` is a truthy array,
`none` otherwise (fetch-jobs.js line 164). -/
def JsPayload := Option (List JsJob)

/-- The three fixed queries (fetch-jobs.js lines 142–146). -/
def jsQueries : List String :=
  ["architect jobs united states",
   "landscape architect jobs united states",
   "urban designer jobs united states"]

/-- `fetchJSearchJobs` (fetch-jobs.js lines 136–174): a falsy key skips
the pass entirely; otherwise the three queries' result arrays are
concatenated in order, any failed or malformed query contributing
nothing. -/
def fetchJSearchJobs (jsResp : String → FetchEvent JsPayload) (apiKey : String) : List JsJob :=
  if apiKey.data.isEmpty then []
  else
    (jsQueries.map (fun q =>
      match jsResp q with
      | FetchEvent.body (some d) => d
      | _ => [])).flatten

/- ═══════════════ Job fetcher: JSearch matching (fetch-jobs.js lines 177–223) ═══════════════ -/

/-- The suffix alternatives of `normalize` (fetch-jobs.js line 181). -/
def normSuffixes : List String :=
  ["inc", "llc", "architects", "architecture", "design", "studio", "group",
   "associates", "partnership", "consulting"]

/-- `normalize` (fetch-jobs.js lines 177–182; renamed, the plain name is
taken by Mathlib): lower-case, keep only `[a-z0-9]`, then strip one
trailing listed suffix (the regex is anchored at the end and no listed
alternative is a suffix of another, so at most one alternative can
match, once). -/
def normalizeName (name : String) : String :=
  let lowered := (strLower name).data.filter
    (fun c => ('a' ≤ c && c ≤ 'z') || ('0' ≤ c && c ≤ '9'))
  let s := String.mk lowered
  match normSuffixes.find? (fun suf => strEndsWith s suf) with
  | some suf => strDropRight s suf.data.length
  | none => s

/-- `Math.round(n / 1000)` for an integer salary bound. -/
def roundThousands (n : Int) : Int := Int.fdiv (n + 500) 1000

/-- Normalization of one JSearch result (fetch-jobs.js lines 199–207);
`j.job_min_salary && j.job_max_salary` is numeric truthiness, so a 0
bound falls back to the literal. -/
def jsNormalize (now : Int) (j : JsJob) : Job :=
  { title := jsStrOr j.job_title "Untitled"
    type := jsStrOr j.job_employment_type "Full-time"
    salary := match j.job_min_salary, j.job_max_salary with
      | some lo, some hi =>
        if lo == 0 || hi == 0 then "See listing"
        else "$" ++ toString (roundThousands lo) ++ "K–$" ++ toString (roundThousands hi) ++ "K"
      | _, _ => "See listing"
    posted := match j.job_posted_at_datetime_utc with
      | some t => if t == 0 then "Recently" else timeAgo now t
      | none => "Recently"
    url := jsStrOr j.job_apply_link "" }

/-- An unmatched discovery entry (fetch-jobs.js lines 212–218). -/
structure Unmatched where
  employer : String
  city : String
  state : String
  country : String
  job : Job
deriving DecidableEq

/-- Index of the last firm whose normalized name equals `key` — the last
`firmIndex.set` wins, exactly as with a JS `Map` built front to back
(fetch-jobs.js lines 186–189, 197). -/
def findLastIdx (p : Firm → Bool) : List Firm → Option Nat
  | [] => none
  | f :: fs =>
    match findLastIdx p fs with
    | some i => some (i + 1)
    | none => if p f then some 0 else none

/-- `matchJSearchToFirms` (fetch-jobs.js lines 185–223): each raw result,
in order, becomes either `(firm index, normalized job)` or an unmatched
discovery entry. -/
def matchJSearchToFirms (now : Int) (firms : List Firm) : List JsJob → List (Nat × Job) × List Unmatched
  | [] => ([], [])
  | j :: rest =>
    let (ms, us) := matchJSearchToFirms now firms rest
    let employer := jsStrOr j.employer_name ""
    let key := normalizeName employer
    let job := jsNormalize now j
    match findLastIdx (fun f => normalizeName f.name == key) firms with
    | some i => ((i, job) :: ms, us)
    | none =>
      (ms,
       { employer := employer
         city := jsStrOr j.job_city ""
         state := jsStrOr j.job_state ""
         country := jsStrOr j.job_country ""
         job := job } :: us)

/-- Apply `g` to the `i`-th element, if any. -/
def updateAt : List Firm → Nat → (Firm → Firm) → List Firm
  | [], _, _ => []
  | f :: fs, 0, g => g f :: fs
  | f :: fs, n + 1, g => f :: updateAt fs n g

/-- One matched JSearch job appended unless a same-title job is already in
the firm's list (fetch-jobs.js lines 282–288). -/
def pushJobDedup (job : Job) (f : Firm) : Firm :=
  if f.jobs.any (fun j => j.title == job.title) then f
  else { f with jobs := f.jobs ++ [job] }

/-- The sequential matched-jobs loop of fetch-jobs.js lines 282–288. -/
def pushMatched : List Firm → List (Nat × Job) → List Firm
  | firms, [] => firms
  | firms, (i, job) :: rest => pushMatched (updateAt firms i (pushJobDedup job)) rest

/- ═══════════════ Job fetcher: main pipeline (fetch-jobs.js lines 226–326) ═══════════════ -/

/-- The third-party responses one fetcher run observes, keyed by slug
(Greenhouse, Lever) or query text (JSearch), plus the run's clock. -/
structure FetchEnv where
  now : Int
  ghResp : String → FetchEvent GhPayload
  lvResp : String → FetchEvent LvPayload
  jsResp : String → FetchEvent JsPayload

/-- Line 235: `for (const f of firms) f.jobs = []`. -/
def eraseJobs (f : Firm) : Firm := { f with jobs := [] }

/-- Clear every firm's job list (fetch-jobs.js lines 234–235). -/
def clearJobs (firms : List Firm) : List Firm := firms.map eraseJobs

/-- The Greenhouse pass (fetch-jobs.js lines 243–253): firms carrying a
truthy `greenhouse_slug` get that slug's fetched jobs appended (the push
happens only for a nonempty result, which is also the identity
otherwise); every other firm is untouched. -/
def ghPass (env : FetchEnv) (firms : List Firm) : List Firm :=
  firms.map (fun f =>
    if strTruthy f.greenhouse_slug then
      let jobs := fetchGreenhouseJobs env.now env.ghResp f.greenhouse_slug
      if jobs.isEmpty then f else { f with jobs := f.jobs ++ jobs }
    else f)

/-- The Lever pass (fetch-jobs.js lines 257–267). -/
def lvPass (env : FetchEnv) (firms : List Firm) : List Firm :=
  firms.map (fun f =>
    if strTruthy f.lever_slug then
      let jobs := fetchLeverJobs env.now env.lvResp f.lever_slug
      if jobs.isEmpty then f else { f with jobs := f.jobs ++ jobs }
    else f)

/-- Everything one fetcher run produces that later code reads: the mutated
firm list, the run's unmatched discoveries, and the raw JSearch results
(whose emptiness gates the whole aggregator block, line 276). -/
structure RunOutcome where
  firms : List Firm
  unmatched : List Unmatched
  jsRaw : List JsJob

/-- `main` (fetch-jobs.js lines 226–296): clear jobs, Greenhouse pass,
Lever pass, then — only when the JSearch pass returned anything — match
and append aggregator jobs. -/
def runFetcher (env : FetchEnv) (apiKey : String) (firms0 : List Firm) : RunOutcome :=
  let fs0 := clearJobs firms0
  let fs1 := ghPass env fs0
  let fs2 := lvPass env fs1
  let raw := fetchJSearchJobs env.jsResp apiKey
  if raw.isEmpty then ⟨fs2, [], raw⟩
  else
    let mu := matchJSearchToFirms env.now fs2 raw
    ⟨pushMatched fs2 mu.1, mu.2, raw⟩

/-- Serialization of one job for the output file. -/
def jobToJson (j : Job) : Json :=
  Json.obj [("title", Json.str j.title), ("type", Json.str j.type),
            ("salary", Json.str j.salary), ("posted", Json.str j.posted),
            ("url", Json.str j.url)]

/-- One record of the public output file (fetch-jobs.js lines 300–313):
exactly the listed fields, rebuilt from scratch. -/
def outputRecord (f : Firm) : List (String × Json) :=
  [("id", f.id),
   ("name", Json.str f.name),
   ("city", f.city),
   ("state", f.state),
   ("lat", f.lat),
   ("lng", f.lng),
   ("size", f.size),
   ("discipline", f.discipline),
   ("specialties", f.specialties),
   ("jobs", Json.arr (f.jobs.map jobToJson)),
   ("website", match f.website with | some w => Json.str w | none => Json.null),
   ("about", f.about)]

/-- The public output file of one run (fetch-jobs.js line 315). -/
def fetcherOutput (env : FetchEnv) (apiKey : String) (firms0 : List Firm) :
    List (List (String × Json)) :=
  (runFetcher env apiKey firms0).firms.map outputRecord

/-- Contents of the discoveries file after one run, given its previous
contents: fetch-jobs.js line 292 writes it only when the run produced a
nonempty unmatched list (and the aggregator block line 276 ran at all);
otherwise the file is left as it was. -/
def discoveriesAfter (env : FetchEnv) (apiKey : String) (firms0 : List Firm)
    (prev : Option (List Unmatched)) : Option (List Unmatched) :=
  let r := runFetcher env apiKey firms0
  if r.unmatched.isEmpty then prev else some r.unmatched

/- ═══════════════ Concrete instances used by witnesses ═══════════════ -/

/-- A firm record with only a name and optional website populated, the
shape the discoverer's generator actually inspects. -/
def mkBasicFirm (name : String) (website : Option String) : Firm :=
  ⟨Json.null, name, Json.null, Json.null, Json.null, Json.null, Json.null,
   Json.null, Json.null, website, Json.null, none, none, []⟩

/-- A probe oracle on which no candidate ever hits. -/
def oracleNone : DiscoveryOracle := ⟨fun _ => false, fun _ => false⟩

/-- An environment in which every provider request fails. -/
def envNull : FetchEnv :=
  ⟨0, fun _ => FetchEvent.fail, fun _ => FetchEvent.fail, fun _ => FetchEvent.fail⟩

/-- A bare firm named "Acme". -/
def firmAcme : Firm := mkBasicFirm "Acme" none

/-- A JSearch result whose employer normalizes to "acme". -/
def jsJobAcme : JsJob :=
  ⟨some "Acme", some "Designer", none, none, none, none, none, none, none, none⟩

/-- A JSearch result whose employer matches no firm. -/
def jsJobZzz : JsJob :=
  ⟨some "Zzz Unknown Co", some "Planner", none, none, none, none, none, none, none, none⟩

/-- Provider requests fail, every JSearch query returns the Acme job. -/
def envC8 : FetchEnv :=
  ⟨0, fun _ => FetchEvent.fail, fun _ => FetchEvent.fail,
   fun _ => FetchEvent.body (some [jsJobAcme])⟩

/-- Provider requests fail, every JSearch query returns the unmatched
job. -/
def envC8b : FetchEnv :=
  ⟨0, fun _ => FetchEvent.fail, fun _ => FetchEvent.fail,
   fun _ => FetchEvent.body (some [jsJobZzz])⟩

/-- A leftover discoveries-file entry from some earlier run. -/
def staleU : Unmatched :=
  ⟨"Old Employer", "", "", "", ⟨"Old role", "Full-time", "See listing", "Recently", ""⟩⟩

/-- The spec's rule-list reading of the Greenhouse job-type heuristic
(spec §4.4, design note §9): ordered rules evaluated in priority order —
metadata entry named like "type", department keywords, title keywords —
with an explicit default. -/
def ghTypeRules : List (GhJob → Option String) :=
  [fun j => metaTypeLookup (j.metadata.getD []), deptTypeCheck, titleTypeCheck]

/-- Evaluate an ordered rule list: the first applicable rule's result,
else the default. -/
def firstApplicable (dflt : String) (j : GhJob) : List (GhJob → Option String) → String
  | [] => dflt
  | r :: rs =>
    match r j with
    | some v => v
    | none => firstApplicable dflt j rs

/-- The spec's reading of a Lever posting's structured commitment field:
present only when the categories object and a nonempty commitment string
are both there. -/
def leverCommitment (j : LvJob) : Option String :=
  match j.categories with
  | some c =>
    match c.commitment with
    | some s => if s.data.isEmpty then none else some s
    | none => none
  | none => none

/-- `b` extends `a`: every field but the job list agrees, and the job
list only grew at the end. -/
def frameExtends (a b : Firm) : Prop :=
  eraseJobs a = eraseJobs b ∧ ∃ t, b.jobs = a.jobs ++ t

/- ═══════════════ Theorems ═══════════════ -/

/-- The Greenhouse body test of part_001 line 147 accepts exactly the
bodies of the spec's shape: an object whose `jobs` field is an array. -/
lemma ghBody_iff (d : Json) : ghBodyMatches (some d) = true ↔ ghShapeSpec d := by
  cases d <;> simp [ghBodyMatches, jsTruthy, jsGet, ghShapeSpec]
  case obj fields =>
    cases h : lookupField fields "jobs" with
    | none => simp [h]
    | some v => cases v <;> simp [h]

/-- The Lever body test of part_001 line 158 accepts exactly top-level
arrays. -/
lemma lvBody_iff (d : Json) : lvBodyMatches (some d) = true ↔ lvShapeSpec d := by
  cases d <;> simp [lvBodyMatches, lvShapeSpec]

/-- C1: a probe classifies a response as a capability match iff the status
is 200 and the decoded body has the provider's expected shape (Greenhouse:
object with a `jobs` array; Lever: top-level array); every other status,
transport error, timeout or decode failure resolves — never throws — to
the same "not found" value, a timeout being indistinguishable from
a 404. -/
theorem c1_probe_classification (slug : String) (ev : HttpEvent) :
    ((probeGreenhouse slug ev).found = true ↔
      ∃ j, ev = HttpEvent.response 200 (some j) ∧ ghShapeSpec j)
    ∧ ((probeLever slug ev).found = true ↔
      ∃ j, ev = HttpEvent.response 200 (some j) ∧ lvShapeSpec j)
    ∧ (∀ body, probeGreenhouse slug HttpEvent.timeout = probeGreenhouse slug (HttpEvent.response 404 body)
        ∧ probeLever slug HttpEvent.timeout = probeLever slug (HttpEvent.response 404 body))
    ∧ (probeGreenhouse slug ev = ⟨true, some slug⟩ ∨ probeGreenhouse slug ev = ⟨false, none⟩)
    ∧ (probeLever slug ev = ⟨true, some slug⟩ ∨ probeLever slug ev = ⟨false, none⟩) := by
  refine ⟨?_, ?_, ?_, ?_, ?_⟩
  · cases ev with
    | response st body =>
      cases body with
      | none => simp [probeGreenhouse, makeRequest, ghBodyMatches]
      | some j =>
        simp only [probeGreenhouse, makeRequest, Bool.and_eq_true, beq_iff_eq,
          Option.some.injEq]
        by_cases hc : st = 200 ∧ ghBodyMatches (some j) = true
        · rw [if_pos hc]
          obtain ⟨h1, h2⟩ := hc
          constructor
          · intro _
            exact ⟨j, by rw [h1], (ghBody_iff j).mp h2⟩
          · intro _
            rfl
        · rw [if_neg hc]
          constructor
          · intro h
            simp at h
          · rintro ⟨j', hj, hshape⟩
            obtain ⟨h1, h2⟩ : st = 200 ∧ j = j' := by simpa using hj
            exact absurd ⟨h1, (ghBody_iff j).mpr (h2 ▸ hshape)⟩ hc
    | transportError m => simp [probeGreenhouse, makeRequest, ghBodyMatches]
    | timeout => simp [probeGreenhouse, makeRequest, ghBodyMatches]
  · cases ev with
    | response st body =>
      cases body with
      | none => simp [probeLever, makeRequest, lvBodyMatches]
      | some j =>
        simp only [probeLever, makeRequest, Bool.and_eq_true, beq_iff_eq,
          Option.some.injEq]
        by_cases hc : st = 200 ∧ lvBodyMatches (some j) = true
        · rw [if_pos hc]
          obtain ⟨h1, h2⟩ := hc
          constructor
          · intro _
            exact ⟨j, by rw [h1], (lvBody_iff j).mp h2⟩
          · intro _
            rfl
        · rw [if_neg hc]
          constructor
          · intro h
            simp at h
          · rintro ⟨j', hj, hshape⟩
            obtain ⟨h1, h2⟩ : st = 200 ∧ j = j' := by simpa using hj
            exact absurd ⟨h1, (lvBody_iff j).mpr (h2 ▸ hshape)⟩ hc
    | transportError m => simp [probeLever, makeRequest, lvBodyMatches]
    | timeout => simp [probeLever, makeRequest, lvBodyMatches]
  · intro body
    cases body with
    | none => exact ⟨rfl, rfl⟩
    | some j => simp [probeGreenhouse, probeLever, makeRequest]
  · simp only [probeGreenhouse]
    split <;> simp
  · simp only [probeLever]
    split <;> simp

/-- C4: the record the fetcher writes to the public output file never
carries a `greenhouse_slug` or `lever_slug` key, whatever the input firm
held. -/
theorem c4_output_excludes_slugs (f : Firm) :
    ¬ ("greenhouse_slug" ∈ (outputRecord f).map Prod.fst)
    ∧ ¬ ("lever_slug" ∈ (outputRecord f).map Prod.fst) := by
  constructor <;> simp [outputRecord]

/-- C6: for the firm named "Foo & Bar Architects (FBA)" with no website,
the generated candidates include "fba", a "foo-and-bar" variant, and
"foo". -/
theorem c6_candidate_contents :
    "fba" ∈ generateSlugCandidates (mkBasicFirm "Foo & Bar Architects (FBA)" none)
    ∧ (∃ c ∈ generateSlugCandidates (mkBasicFirm "Foo & Bar Architects (FBA)" none),
        strStartsWith c "foo-and-bar" = true)
    ∧ "foo" ∈ generateSlugCandidates (mkBasicFirm "Foo & Bar Architects (FBA)" none) := by
  refine ⟨by decide, ⟨"foo-and-bar-architects-fba", by decide, by decide⟩, by decide⟩

/-- When no candidate hits either provider, the probe loop leaves the firm
and both flags untouched. -/
lemma probeLoop_nohit (o : DiscoveryOracle) (cands : List String) (firm : Firm)
    (h : ∀ c ∈ cands, o.gh c = false ∧ o.lv c = false) :
    probeLoop o cands firm false false = (firm, false, false) := by
  induction cands with
  | nil => rfl
  | cons c rest ih =>
    obtain ⟨h1, h2⟩ := h c (List.mem_cons_self c rest)
    simp only [probeLoop, h1, h2, Bool.not_false, Bool.and_false, Bool.false_and,
      Bool.and_self, if_false, Bool.not_true]
    simpa using ih (fun d hd => h d (List.mem_cons_of_mem c hd))

/-- C3: when no generated candidate hits Greenhouse or Lever, discovery
records the first (heuristically best) candidate as the firm's
`greenhouse_slug`. -/
theorem c3_fallback_first_candidate (o : DiscoveryOracle) (firm : Firm)
    (c0 : String) (rest : List String)
    (hnone : ∀ c ∈ generateSlugCandidates firm, o.gh c = false ∧ o.lv c = false)
    (hcands : generateSlugCandidates firm = c0 :: rest) :
    (processFirm o firm).1.greenhouse_slug = some c0 := by
  have hloop : probeLoop o (c0 :: rest) firm false false = (firm, false, false) :=
    hcands ▸ probeLoop_nohit o (generateSlugCandidates firm) firm hnone
  simp [processFirm, hcands, hloop]

/-- Witness for C3 at a concrete firm: "Acme" generates the single
candidate "acme", the all-miss oracle hits nothing, and discovery indeed
records "acme". -/
theorem c3_witness :
    generateSlugCandidates (mkBasicFirm "Acme" none) = ["acme"]
    ∧ (processFirm oracleNone (mkBasicFirm "Acme" none)).1.greenhouse_slug = some "acme" :=
  ⟨by decide,
   c3_fallback_first_candidate oracleNone (mkBasicFirm "Acme" none) "acme" []
     (by decide) (by decide)⟩

/-- Folding the tally adds exactly one to the three counters' sum per
result. -/
lemma tally_sum (rs : List (Bool × Bool)) : ∀ acc : DiscStats,
    (rs.foldl tallyStep acc).greenhouse + (rs.foldl tallyStep acc).lever
      + (rs.foldl tallyStep acc).noMatch
    = acc.greenhouse + acc.lever + acc.noMatch + rs.length := by
  induction rs with
  | nil => intro acc; simp
  | cons r rest ih =>
    intro acc
    rw [List.foldl_cons, ih]
    unfold tallyStep
    rcases r with ⟨g, l⟩
    cases g <;> cases l <;> simp [List.length_cons] <;> omega

/-- C10: the discoverer's summary counters partition the firm list — each
processed firm increments exactly one counter, greenhouse taking priority
over lever over no-match, so the three always sum to the number of
firms. -/
theorem c10_summary_partition (o : DiscoveryOracle) (firms : List Firm) :
    ((discovererStats o firms).greenhouse + (discovererStats o firms).lever
      + (discovererStats o firms).noMatch = firms.length)
    ∧ (∀ acc : DiscStats, tallyStep acc (true, true) = { acc with greenhouse := acc.greenhouse + 1 }
        ∧ tallyStep acc (false, true) = { acc with lever := acc.lever + 1 }
        ∧ tallyStep acc (false, false) = { acc with noMatch := acc.noMatch + 1 }) := by
  refine ⟨?_, fun acc => ⟨rfl, rfl, rfl⟩⟩
  unfold discovererStats
  rw [tally_sum]
  simp

/-- C2: the fetcher's result depends only on the jobs-erased input (every
firm's job list is cleared before the passes), so two runs over unchanged
input and identical provider responses produce equal outputs — in
particular per-firm job lists that are permutations of each other — and
nothing accumulates from any job list the input carried. -/
theorem c2_rerun_no_accumulation (env : FetchEnv) (apiKey : String)
    (firms1 firms2 : List Firm)
    (h : firms1.map eraseJobs = firms2.map eraseJobs) :
    runFetcher env apiKey firms1 = runFetcher env apiKey firms2
    ∧ fetcherOutput env apiKey firms1 = fetcherOutput env apiKey firms2
    ∧ List.Forall₂ (fun a b => a.jobs.Perm b.jobs)
        (runFetcher env apiKey firms1).firms (runFetcher env apiKey firms2).firms := by
  have hc : clearJobs firms1 = clearJobs firms2 := h
  have hr : runFetcher env apiKey firms1 = runFetcher env apiKey firms2 := by
    simp only [runFetcher, hc]
  refine ⟨hr, ?_, ?_⟩
  · unfold fetcherOutput
    rw [hr]
  · rw [hr]
    exact List.forall₂_same.mpr (fun x _ => List.Perm.refl x.jobs)

/-- Witness for C2: a run over the seeded input equals the run over the
same input with its job list cleared — the seeded job does not leak into
the output. -/
theorem c2_witness :
    ([{ firmAcme with jobs := [⟨"Old role", "Full-time", "See listing", "Recently", ""⟩] }].map eraseJobs
      = [firmAcme].map eraseJobs)
    ∧ runFetcher envNull ""
        [{ firmAcme with jobs := [⟨"Old role", "Full-time", "See listing", "Recently", ""⟩] }]
      = runFetcher envNull "" [firmAcme] :=
  ⟨rfl,
   (c2_rerun_no_accumulation envNull ""
     [{ firmAcme with jobs := [⟨"Old role", "Full-time", "See listing", "Recently", ""⟩] }]
     [firmAcme] rfl).1⟩

/-- C7: the Greenhouse type heuristic is exactly the spec's ordered rule
list (metadata "type" entry, then department keywords, then title
keywords, then the "Full-time" default), and a Lever posting's type is
its structured commitment field with the same default when absent. -/
theorem c7_job_type_priority (now : Int) (gh : GhJob) (lv : LvJob) :
    (ghNormalize now gh).type = firstApplicable "Full-time" gh ghTypeRules
    ∧ (lvNormalize now lv).type = (leverCommitment lv).getD "Full-time" := by
  constructor
  · show extractType gh = _
    unfold extractType firstApplicable ghTypeRules
    rfl
  · show leverJobType lv = _
    cases hcat : lv.categories with
    | none => simp [leverJobType, leverCommitment, hcat]
    | some c =>
      cases hcom : c.commitment with
      | none => simp [leverJobType, leverCommitment, jsStrOr, hcat, hcom]
      | some s =>
        by_cases hs : s.data.isEmpty = true
        · simp [leverJobType, leverCommitment, jsStrOr, hcat, hcom, hs]
        · simp [leverJobType, leverCommitment, jsStrOr, hcat, hcom, hs]

lemma frameExtends_refl (a : Firm) : frameExtends a a := ⟨rfl, [], by simp⟩

lemma frameExtends_trans {a b c : Firm} (h1 : frameExtends a b) (h2 : frameExtends b c) :
    frameExtends a c := by
  obtain ⟨e1, t1, ht1⟩ := h1
  obtain ⟨e2, t2, ht2⟩ := h2
  exact ⟨e1.trans e2, t1 ++ t2, by rw [ht2, ht1, List.append_assoc]⟩

lemma forall₂_fe_refl (l : List Firm) : List.Forall₂ frameExtends l l :=
  List.forall₂_same.mpr (fun x _ => frameExtends_refl x)

lemma forall₂_fe_trans : ∀ {l1 l2 l3 : List Firm},
    List.Forall₂ frameExtends l1 l2 → List.Forall₂ frameExtends l2 l3 →
    List.Forall₂ frameExtends l1 l3 := by
  intro l1 l2 l3 h12
  induction h12 generalizing l3 with
  | nil =>
    intro h23
    cases h23
    exact List.Forall₂.nil
  | cons hab _ ih =>
    intro h23
    cases h23 with
    | cons hbc h' => exact List.Forall₂.cons (frameExtends_trans hab hbc) (ih h')

lemma updateAt_fe (g : Firm → Firm) (hg : ∀ f, frameExtends f (g f)) :
    ∀ (fs : List Firm) (i : Nat), List.Forall₂ frameExtends fs (updateAt fs i g) := by
  intro fs
  induction fs with
  | nil => intro i; exact List.Forall₂.nil
  | cons f fs ih =>
    intro i
    cases i with
    | zero => exact List.Forall₂.cons (hg f) (forall₂_fe_refl fs)
    | succ n => exact List.Forall₂.cons (frameExtends_refl f) (ih n)

lemma pushJobDedup_fe (job : Job) (f : Firm) : frameExtends f (pushJobDedup job f) := by
  unfold pushJobDedup
  split
  · exact frameExtends_refl f
  · exact ⟨rfl, [job], rfl⟩

lemma pushMatched_fe (ms : List (Nat × Job)) :
    ∀ fs : List Firm, List.Forall₂ frameExtends fs (pushMatched fs ms) := by
  induction ms with
  | nil => intro fs; exact forall₂_fe_refl fs
  | cons m rest ih =>
    intro fs
    rcases m with ⟨i, job⟩
    exact forall₂_fe_trans (updateAt_fe (pushJobDedup job) (pushJobDedup_fe job) fs i) (ih _)

/-- C5: with the aggregator credential absent, the JSearch fetch returns
nothing, the run's result is exactly the Greenhouse-then-Lever passes
with no unmatched discoveries, and any with-credential run only extends
each firm's job list beyond that same Greenhouse/Lever result (every
other field equal) — the missing key disables the aggregator pass alone
and is no error. -/
theorem c5_missing_key_disables_aggregator_only (env : FetchEnv) (firms : List Firm)
    (apiKey : String) :
    fetchJSearchJobs env.jsResp "" = []
    ∧ runFetcher env "" firms = ⟨lvPass env (ghPass env (clearJobs firms)), [], []⟩
    ∧ List.Forall₂ frameExtends (runFetcher env "" firms).firms
        (runFetcher env apiKey firms).firms := by
  have h0 : fetchJSearchJobs env.jsResp "" = [] := rfl
  have h1 : runFetcher env "" firms = ⟨lvPass env (ghPass env (clearJobs firms)), [], []⟩ := by
    simp [runFetcher, h0]
  refine ⟨h0, h1, ?_⟩
  rw [h1]
  show List.Forall₂ frameExtends (lvPass env (ghPass env (clearJobs firms)))
    (runFetcher env apiKey firms).firms
  by_cases hr : (fetchJSearchJobs env.jsResp apiKey).isEmpty = true
  · simpa [runFetcher, hr] using forall₂_fe_refl (lvPass env (ghPass env (clearJobs firms)))
  · simpa [runFetcher, hr] using
      pushMatched_fe
        (matchJSearchToFirms env.now (lvPass env (ghPass env (clearJobs firms)))
          (fetchJSearchJobs env.jsResp apiKey)).1
        (lvPass env (ghPass env (clearJobs firms)))

/-- C9: each provider pass touches only the job lists of firms carrying
that provider's slug — every firm keeps all non-job fields, and a firm
without the relevant slug is returned unchanged. -/
theorem c9_pass_frame (env : FetchEnv) (firms : List Firm) :
    List.Forall₂ (fun f g => eraseJobs g = eraseJobs f
        ∧ (strTruthy f.greenhouse_slug = false → g = f)) firms (ghPass env firms)
    ∧ List.Forall₂ (fun f g => eraseJobs g = eraseJobs f
        ∧ (strTruthy f.lever_slug = false → g = f)) firms (lvPass env firms) := by
  constructor
  · unfold ghPass
    rw [List.forall₂_map_right_iff]
    refine List.forall₂_same.mpr (fun f _ => ?_)
    by_cases hs : strTruthy f.greenhouse_slug = true
    · rw [if_pos hs]
      constructor
      · simp only []
        split <;> rfl
      · intro hfalse
        rw [hfalse] at hs
        cases hs
    · rw [if_neg hs]
      exact ⟨rfl, fun _ => rfl⟩
  · unfold lvPass
    rw [List.forall₂_map_right_iff]
    refine List.forall₂_same.mpr (fun f _ => ?_)
    by_cases hs : strTruthy f.lever_slug = true
    · rw [if_pos hs]
      constructor
      · simp only []
        split <;> rfl
      · intro hfalse
        rw [hfalse] at hs
        cases hs
    · rw [if_neg hs]
      exact ⟨rfl, fun _ => rfl⟩

/-- Witness for C9 at a concrete environment and firm list. -/
theorem c9_witness :
    List.Forall₂ (fun f g => eraseJobs g = eraseJobs f
        ∧ (strTruthy f.greenhouse_slug = false → g = f)) [firmAcme] (ghPass envNull [firmAcme])
    ∧ List.Forall₂ (fun f g => eraseJobs g = eraseJobs f
        ∧ (strTruthy f.lever_slug = false → g = f)) [firmAcme] (lvPass envNull [firmAcme]) :=
  c9_pass_frame envNull [firmAcme]

/-- C8 counterexample: a run with the aggregator enabled (nonempty raw
results) in which every aggregator job matches an existing firm leaves
the discoveries file holding a stale earlier entry — the file is not
overwritten with the run's (empty) unmatched list, contradicting the
claim that it reflects the current run after every enabled run. -/
theorem c8_counterexample :
    (runFetcher envC8 "key123" [firmAcme]).jsRaw ≠ []
    ∧ discoveriesAfter envC8 "key123" [firmAcme] (some [staleU]) = some [staleU]
    ∧ discoveriesAfter envC8 "key123" [firmAcme] (some [staleU])
        ≠ some ((runFetcher envC8 "key123" [firmAcme]).unmatched) := by
  refine ⟨by decide, by decide, by decide⟩

/-- C8 amended: when a run produces at least one unmatched aggregator
result, the discoveries file is overwritten with exactly the current
run's unmatched results, regardless of its previous contents; a run
producing none leaves the file untouched. -/
theorem c8_amended_overwrite (env : FetchEnv) (apiKey : String) (firms : List Firm)
    (prev : Option (List Unmatched))
    (h : (runFetcher env apiKey firms).unmatched ≠ []) :
    discoveriesAfter env apiKey firms prev
      = some ((runFetcher env apiKey firms).unmatched) := by
  unfold discoveriesAfter
  simp [List.isEmpty_iff, h]

/-- Witness for C8's amended claim: a run whose aggregator results match
no firm rewrites the discoveries file with them. -/
theorem c8_witness :
    (runFetcher envC8b "key123" ([] : List Firm)).unmatched ≠ []
    ∧ discoveriesAfter envC8b "key123" [] none
        = some ((runFetcher envC8b "key123" ([] : List Firm)).unmatched) :=
  ⟨by decide, c8_amended_overwrite envC8b "key123" [] none (by decide)⟩
